import Mathlib

/-!
Verification of the balaio repository's natural-language specification against a
shallow embedding of its four source files (balaio.py, checkout.py, utils.py,
vpipes.py).  Python strings are embedded as lists of characters, byte streams as
lists of naturals, fallible Python code as Except values, and Python's
truthiness/`%`/slicing conventions are reproduced where the source relies on them.
-/

set_option maxHeartbeats 1000000

deriving instance DecidableEq for Except

namespace Balaio

/-- Python exception values observable from the embedded code: the repository's
code raises `TypeError` and `ValueError` with distinguishing messages. -/
inductive PyErr where
  | typeError (msg : String)
  | valueError (msg : String)
  deriving DecidableEq, Repr

/-- A Python string embedded as its list of characters. -/
abbrev PyStr := List Char

/-- Coerce a Lean string literal to the embedding's character-list form. -/
def pys (s : String) : PyStr := s.data

/-- A dynamically-typed Python argument: either a text value or some non-text
value (used to embed the `isinstance(issn, basestring)` check). -/
inductive PyVal where
  | str (s : PyStr)
  | nonText

/-- Message of the error Python's `int()` raises on a non-numeric literal. -/
def intErrMsg : String := "invalid literal for int() with base 10"

/-- Embedding of Python's `int(v)` applied to a single character `v`:
succeeds exactly on the decimal digits `0`-`9`, otherwise raises `ValueError`. -/
def pyCharToInt (c : Char) : Except PyErr Nat :=
  if c.isDigit then .ok (c.toNat - 48) else .error (.valueError intErrMsg)

/-- The accumulation loop of `calc_check_digit_issn` (utils.py, lines 313-317):
`for i, v in enumerate(lissn[:-1]): total = total + ((8-i) * int(v))`.
`int(v)` raises at the first non-digit character. -/
def issnTotal (i : Nat) (acc : Int) : List Char → Except PyErr Int
  | [] => .ok acc
  | c :: cs =>
    match pyCharToInt c with
    | .error e => .error e
    | .ok d => issnTotal (i + 1) (acc + ((8 : Int) - (i : Int)) * (d : Int)) cs

/-- Tail of `calc_check_digit_issn` (utils.py, lines 319-326): remainder mod 11
(Python's `%` on a positive modulus, i.e. Euclidean), check digit 0 for
remainder 0 and `11 - remainder` otherwise, rendered as `'X'` for 10 and as a
decimal digit character otherwise. -/
def issnCheckDigitOfTotal (total : Int) : PyStr :=
  let remainder : Int := total % 11
  let check_digit : Int := if remainder = 0 then 0 else 11 - remainder
  if check_digit = 10 then ['X'] else [Char.ofNat (48 + check_digit.toNat)]

/-- Embedding of `calc_check_digit_issn` (utils.py, lines 306-326):
`issn.replace('-', '')` removes every hyphen, and the weighted sum ranges over
`lissn[:-1]`, i.e. all remaining characters except the last. -/
def calc_check_digit_issn (issn : PyStr) : Except PyErr PyStr :=
  let lissn := issn.filter (fun c => c ≠ '-')
  match issnTotal 0 0 lissn.dropLast with
  | .error e => .error e
  | .ok total => .ok (issnCheckDigitOfTotal total)

/-- The check-digit computation as the claim words it: the weighted sum ranges
over the first 7 characters remaining after hyphen removal (the source instead
ranges over all such characters except the last; the two agree only when the
input holds exactly one hyphen). -/
def calcCheckDigitIssnSpecFirst7 (issn : PyStr) : Except PyErr PyStr :=
  let lissn := issn.filter (fun c => c ≠ '-')
  match issnTotal 0 0 (lissn.take 7) with
  | .error e => .error e
  | .ok total => .ok (issnCheckDigitOfTotal total)

/-- Embedding of `validate_issn` (utils.py, lines 285-303): the four checks in
source order — text type, length 9, hyphen presence, check digit equal to the
final character — each raising its distinct error, returning the input
unchanged when all hold. -/
def validate_issn : PyVal → Except PyErr PyStr
  | .nonText => .error (.typeError "Invalid type")
  | .str issn =>
    if issn.length ≠ 9 then .error (.valueError "Invalid length")
    else if '-' ∉ issn then .error (.valueError "Invalid format")
    else
      match calc_check_digit_issn issn with
      | .error e => .error e
      | .ok cd =>
        match issn.getLast? with
        | none => .error (.valueError "string index out of range")
        | some c => if cd ≠ [c] then .error (.valueError "Invaid ISSN") else .ok issn

/-- Embedding of `is_valid_issn` (utils.py, lines 329-336): `bool(validate_issn
issn)` with `ValueError` and `TypeError` both collapsed to `False`. -/
def is_valid_issn (v : PyVal) : Bool :=
  match validate_issn v with
  | .ok s => s ≠ []
  | .error _ => false

/-- Python's whitespace set for `str.strip()`. -/
def isPySpaceChar (c : Char) : Bool :=
  c = ' ' || c = '\t' || c = '\n' || c.toNat = 11 || c.toNat = 12 || c = '\r'

/-- Embedding of Python's `str.strip()`: drop whitespace from both ends. -/
def pyStrip (l : PyStr) : PyStr :=
  ((l.dropWhile isPySpaceChar).reverse.dropWhile isPySpaceChar).reverse

/-- Index of the first occurrence of `pat` as a contiguous run of `l`
(the search behind Python's `str.find` and the `in` operator). -/
def firstOccur? (pat : PyStr) : PyStr → Option Nat
  | [] => if pat <+: ([] : PyStr) then some 0 else none
  | c :: t => if pat <+: (c :: t) then some 0 else (firstOccur? pat t).map (· + 1)

/-- Embedding of Python's `str.find`: first-occurrence index, `-1` if absent. -/
def pyFind (pat l : PyStr) : Int :=
  match firstOccur? pat l with
  | some n => (n : Int)
  | none => -1

/-- Embedding of Python's slice `l[i:]` with a possibly negative start. -/
def pySliceFrom (l : PyStr) (i : Int) : PyStr :=
  if 0 ≤ i then l.drop i.toNat else l.drop (l.length - min l.length i.natAbs)

/-- The case-insensitive supplement marker searched by `parse_issue_tag`. -/
def supMarker : PyStr := ['s', 'u', 'p']

/-- Label component of `parse_issue_tag` when the marker sits at index `p` of
the lowercased text: `issue_tag_content[p:]` cut at the first space if any
(utils.py, lines 360-362). -/
def issueSupplLabel (s : PyStr) (p : Nat) : PyStr :=
  let labelFull := s.drop p
  match firstOccur? [' '] labelFull with
  | some q => labelFull.take q
  | none => labelFull

/-- Embedding of `parse_issue_tag` (utils.py, lines 339-371).  The input is
`Option`-valued because the source guards with Python truthiness (`if
issue_tag_content:`), which conflates `None` and the empty string.  Note that
the number component is cut from `lower_issue`, the lowercased text, while the
label is cut from the original-case text; the supplement value is sliced from
`issue_tag_content.find(suppl_label) + len(suppl_label)`. -/
def parse_issue_tag (issue_tag_content : Option PyStr) :
    Option PyStr × Option PyStr × Option PyStr :=
  match issue_tag_content with
  | none => (none, none, none)
  | some s =>
    if s = [] then (none, none, none)
    else
      let lower_issue := s.map Char.toLower
      match firstOccur? supMarker lower_issue with
      | some p =>
        let number0 := pyStrip (lower_issue.take p)
        let number : Option PyStr := if number0 = [] then none else some number0
        let suppl_label := issueSupplLabel s p
        let suppl0 := pyStrip (pySliceFrom s (pyFind suppl_label s + suppl_label.length))
        let suppl : Option PyStr := if suppl0 = [] then none else some suppl0
        (number, some suppl_label, suppl)
      | none => (some s, none, none)

/-- Python truthiness of an optional string: `None` and `''` are falsy. -/
def pyTruthy (o : Option PyStr) : Bool :=
  match o with
  | none => false
  | some s => s ≠ []

/-- Embedding of `supplement_type` (utils.py, lines 374-390): the supplement
goes to the number axis when `number` is truthy, else to the volume axis; the
`volume` parameter is accepted and ignored, as in the source. -/
def supplement_type (_volume number suppl : Option PyStr) : Option PyStr × Option PyStr :=
  if pyTruthy number then (none, suppl) else (suppl, none)

/-- Decimal rendering of a natural, as Python's `str(len(serialized))` used in
the frame header of `send_message`. -/
def decRepr (n : Nat) : List Nat :=
  if n = 0 then [48] else ((Nat.digits 10 n).reverse).map (fun d => d + 48)

/-- Accumulate the value of a run of decimal digit bytes. -/
def parseDigits (l : List Nat) : Nat :=
  l.foldl (fun a d => a * 10 + (d - 48)) 0

/-- Whitespace bytes ignored by Python's `int()` (and `str.strip`). -/
def isByteSpace (b : Nat) : Bool :=
  b = 32 || b = 9 || b = 10 || b = 11 || b = 12 || b = 13

/-- Decimal digit bytes. -/
def isByteDigit (b : Nat) : Bool :=
  48 ≤ b && b ≤ 57

/-- Strip whitespace bytes from both ends. -/
def byteStripWs (l : List Nat) : List Nat :=
  ((l.dropWhile isByteSpace).reverse.dropWhile isByteSpace).reverse

/-- Embedding of Python's `int(text)`: strip surrounding whitespace, then
require a nonempty run of decimal digits. -/
def pyIntBytes (l : List Nat) : Except PyErr Nat :=
  let t := byteStripWs l
  if t ≠ [] ∧ t.all isByteDigit then .ok (parseDigits t) else .error (.valueError intErrMsg)

/-- `stream.readline()` on a byte stream (file-object semantics): returns up to
and including the first newline, the whole remainder when no newline is left,
and the empty string exactly at end of stream. -/
def readLine : List Nat → List Nat × List Nat
  | [] => ([], [])
  | b :: rest =>
    if b = 10 then ([10], rest)
    else
      let (l, r) := readLine rest
      (b :: l, r)

/-- Python's `str.split(' ')`: split at every space byte, keeping empty runs. -/
def splitSpace : List Nat → List (List Nat)
  | [] => [[]]
  | b :: rest =>
    if b = 32 then [] :: splitSpace rest
    else
      match splitSpace rest with
      | [] => [[b]]
      | g :: gs => (b :: g) :: gs

/-- The frame header written by `send_message` (utils.py, line 168):
`'%s %s\n' % (data_digest, len(serialized))`. -/
def frameHeader (dg : List Nat) (n : Nat) : List Nat :=
  dg ++ [32] ++ decRepr n ++ [10]

/-- Embedding of `send_message` (utils.py, lines 149-177): the bytes written to
the stream — header line then serialized body.  The serializer (`pickle.dumps`)
and the digest are parameters, as in the source (`pickle_dep`, `digest`). -/
def send_message {α : Type} (digest : List Nat → List Nat) (ser : α → List Nat) (m : α) :
    List Nat :=
  frameHeader (digest (ser m)) (ser m).length ++ ser m

/-- The receive loop of `recv_messages` (utils.py, lines 205-222), with fuel
standing in for the unbounded `while True`: read a header line (an empty read
raises `StopIteration`, ending the sequence), split it at the space into digest
and length, read that many body bytes, then yield the deserialized message when
the recomputed digest matches and otherwise skip the frame and continue.
Returns the yielded messages together with the terminating error, if any. -/
def recvLoop {α : Type} (digest : List Nat → List Nat) (deser : List Nat → Option α) :
    Nat → List Nat → List α × Option PyErr
  | 0, _ => ([], none)
  | fuel + 1, stream =>
    let (header, rest) := readLine stream
    if header = [] then ([], none)
    else
      match splitSpace header with
      | [in_digest, in_length] =>
        match pyIntBytes in_length with
        | .error e => ([], some e)
        | .ok n =>
          let in_message := rest.take n
          let rest2 := rest.drop n
          if in_digest = digest in_message then
            match deser in_message with
            | some m =>
              let (ms, e) := recvLoop digest deser fuel rest2
              (m :: ms, e)
            | none => ([], some (.valueError "unpickling error"))
          else recvLoop digest deser fuel rest2
      | _ => ([], some (.valueError "unpack error"))

/-- Embedding of `recv_messages` (utils.py, lines 180-222): run the receive
loop over the whole stream; the fuel `length + 1` suffices because every
iteration consumes at least one byte. -/
def recv_messages {α : Type} (digest : List Nat → List Nat) (deser : List Nat → Option α)
    (stream : List Nat) : List α × Option PyErr :=
  recvLoop digest deser (stream.length + 1) stream

/-- Concrete digest instantiating the protocol's `digest` parameter in
witnesses: one byte in the digit range, so it contains neither newline nor
space. -/
def witnessDigest (b : List Nat) : List Nat := [48 + b.sum % 10]

/-- Concrete serializer instantiating `pickle_dep.dumps` in witnesses. -/
def witnessSer (n : Nat) : List Nat := [n]

/-- Concrete deserializer instantiating `pickle_dep.loads` in witnesses. -/
def witnessDeser (l : List Nat) : Option Nat :=
  match l with
  | [x] => some x
  | _ => none

/-- An attempt as seen by vpipes.py: only the tri-state validity flag matters
(`is_valid` may be True, False or unset/None). -/
structure VAttempt where
  is_valid : Option Bool
  aid : Nat
  deriving DecidableEq, Repr

/-- The two input shapes accepted by a validation stage (vpipes.py docstring):
a bare attempt-like value, or the 4-tuple `(attempt, package analyzer, journal
and issue data, db session)`; the latter three components are opaque here. -/
inductive VItem where
  | bare (a : VAttempt)
  | tup (a : VAttempt) (pkg ctx sess : Nat)
  deriving DecidableEq, Repr

/-- The attempt extracted by `attempt_is_valid`'s unpack-or-TypeError dance
(vpipes.py, lines 13-16). -/
def vitemAttempt : VItem → VAttempt
  | .bare a => a
  | .tup a _ _ _ => a

/-- Embedding of `attempt_is_valid` (vpipes.py, lines 12-20): true when the
precondition is met, false when it raises `UnmetPrecondition`, i.e. whenever
`attempt.is_valid != True`. -/
def attempt_is_valid (d : VItem) : Bool :=
  decide ((vitemAttempt d).is_valid = some true)

/-- Embedding of `ValidationPipe.transform` (vpipes.py, lines 31-53) under its
`precondition(attempt_is_valid)` decorator.  The decorator lives in the
third-party plumber package; its skip semantics are the ones the spec states:
when the precondition raises `UnmetPrecondition` the stage returns the item
unchanged.  `validateF` stands for the abstract subclass `validate`; `notifyF`
for the notifier's `tell`, which may raise (savepoint rollback then re-raise).
The Bool records whether `validate` was invoked.  A gated bare item fails at
`item[0]` with a `TypeError` before `validate` is ever reached. -/
def transform (validateF : VItem → Nat × String)
    (notifyF : VAttempt → Nat → Nat × String → Except PyErr Unit)
    (item : VItem) : Except PyErr VItem × Bool :=
  if ¬ attempt_is_valid item then (.ok item, false)
  else
    match item with
    | .bare _ => (.error (.typeError "'Attempt' object is not subscriptable"), false)
    | .tup a _ _ sess =>
      let r := validateF item
      match notifyF a sess r with
      | .ok _ => (.ok item, true)
      | .error e => (.error e, true)

/-- Concrete `validate` used by witnesses. -/
def witnessValidate : VItem → Nat × String := fun _ => (1, "ok")

/-- Concrete notifier used by witnesses. -/
def witnessNotify : VAttempt → Nat → Nat × String → Except PyErr Unit :=
  fun _ _ _ => .ok ()

/-- An archive entry as yielded by the package analyzer's `get_fps`
(checkin.PackageAnalyzer, a boundary system): a name and readable content. -/
structure SEntry where
  name : String
  content : List Nat
  deriving DecidableEq, Repr

/-- An attempt as seen by `upload_static_files`: the article package id and the
package archive's entries, by extension. -/
structure CAttempt where
  aid : String
  files : String → List SEntry

/-- Modelled from the spec: `utils.get_static_path` is called by checkout.py
but absent from the given utils.py; per the spec the destination path is keyed
by (`articles`, article-package id, entry name). -/
def get_static_path (base aid name : String) : String :=
  base ++ "/" ++ aid ++ "/" ++ name

/-- Embedding of `get_static` (checkout.py, lines 42-50). -/
def get_static (attempt : CAttempt) (ext : String) : List SEntry :=
  attempt.files ext

/-- Update of the string-keyed `uri_dict` (a Python dict used at the fixed keys
`'xml'`, `'pdf'`, `'img'`), embedded as a function to `Option`. -/
def uriDictSet (d : String → Option String) (k v : String) : String → Option String :=
  fun k2 => if k2 = k then some v else d k2

/-- Update of the filename-keyed `dict_img` (insertion-ordered with in-place
overwrite, as a Python dict). -/
def pyDictSet (d : List (String × List Nat)) (k : String) (v : List Nat) :
    List (String × List Nat) :=
  match d with
  | [] => [(k, v)]
  | p :: rest => if p.1 = k then (k, v) :: rest else p :: pyDictSet rest k v

/-- One iteration of the `uri_dict[ext] = uri` upload loop of
`upload_static_files` (checkout.py, lines 65-71): send the entry's content to
the static backend and overwrite the extension's key with the returned URI.
`uriOf` stands for the backend's send-returning-URI; the second component
accumulates every `(destination path, content)` actually sent. -/
def uploadExtStep (uriOf : String → String) (aid ext : String)
    (st : (String → Option String) × List (String × List Nat)) (e : SEntry) :
    (String → Option String) × List (String × List Nat) :=
  let path := get_static_path "articles" aid e.name
  (uriDictSet st.1 ext (uriOf path), st.2 ++ [(path, e.content)])

/-- Embedding of `upload_static_files` (checkout.py, lines 53-84): for each
extension in `FILES_EXTENSION = ['xml', 'pdf']` upload every matching entry,
keeping only the last URI per key; collect every `['tif', 'eps']` entry into
`dict_img`, bundle it with `utils.zip_files` (the `zipF` parameter, absent from
the given utils.py) and upload it as `images.zip` under key `'img'`.  Returns
the uri dict together with the list of uploads sent to the backend. -/
def upload_static_files (zipF : List (String × List Nat) → List Nat)
    (uriOf : String → String) (attempt : CAttempt) :
    (String → Option String) × List (String × List Nat) :=
  let st1 := ["xml", "pdf"].foldl
    (fun st ext => (get_static attempt ext).foldl (uploadExtStep uriOf attempt.aid ext) st)
    (fun _ => none, [])
  let dict_img := ["tif", "eps"].foldl
    (fun d ext => (get_static attempt ext).foldl (fun d e => pyDictSet d e.name e.content) d)
    []
  let comp_img := zipF dict_img
  let zpath := get_static_path "articles" attempt.aid "images.zip"
  (uriDictSet st1.1 "img" (uriOf zpath), st1.2 ++ [(zpath, comp_img)])

/-- Concrete attempt used by the C5 witness: two xml entries, one pdf, one tif
and one eps entry. -/
def witnessCAttempt : CAttempt :=
  ⟨"a9", fun ext =>
    if ext = "xml" then [⟨"x1.xml", [1]⟩, ⟨"x2.xml", [2]⟩]
    else if ext = "pdf" then [⟨"p1.pdf", [3]⟩]
    else if ext = "tif" then [⟨"i1.tif", [4]⟩]
    else if ext = "eps" then [⟨"i2.eps", [5]⟩]
    else []⟩

/-- Concrete zip bundler used by the C5 witness. -/
def witnessZip : List (String × List Nat) → List Nat := fun d => (d.map Prod.snd).flatten

/-- Concrete URI map used by the C5 witness. -/
def witnessUri : String → String := fun p => p

/-- An attempt as seen by the checkout run loop (checkout.py and the datastore
query fields it relies on). -/
structure DAttempt where
  aid : Nat
  proceed_to_checkout : Bool
  pending_checkout : Bool
  queued_checkout : Bool
  checkout_started_at : Option Nat
  deriving DecidableEq, Repr

/-- Embedding of `checkout_procedure` (checkout.py, lines 110-127): record the
checkout start time, upload the static files, upload the front matter, then
clear `queued_checkout`.  The two upload operations are parameters that may
raise; any failure propagates. -/
def checkout_procedure (uploadS uploadM : DAttempt → Except PyErr Unit) (now : Nat)
    (a : DAttempt) : Except PyErr DAttempt :=
  let a1 := { a with checkout_started_at := some now }
  match uploadS a1 with
  | .error e => .error e
  | .ok _ =>
    match uploadM a1 with
    | .error e => .error e
    | .ok _ => .ok { a1 with queued_checkout := false }

/-- `pool.map(checkout_procedure, checkout_lst)` over the batch: all items are
processed; if any raises, the error propagates to the caller. -/
def processAll (f : DAttempt → Except PyErr DAttempt) :
    List DAttempt → Except PyErr (List DAttempt)
  | [] => .ok []
  | a :: rest =>
    match f a with
    | .error e => .error e
    | .ok b =>
      match processAll f rest with
      | .error e => .error e
      | .ok bs => .ok (b :: bs)

/-- The run loop's eligibility query (checkout.py, lines 149-151):
`proceed_to_checkout=True, pending_checkout=True`. -/
def eligibleCheckout (a : DAttempt) : Bool :=
  a.proceed_to_checkout && a.pending_checkout

/-- Embedding of one iteration of `main`'s run loop (checkout.py, lines
147-170): query the eligible attempts; if any, run the checkout procedure over
the batch and `transaction.commit()` — the returned datastore state holds every
attempt's mutations; on any exception `transaction.abort()` discards the unit
of work, the datastore keeps its prior state, and the error is re-raised
(returned alongside). -/
def run_iteration (proc : DAttempt → Except PyErr DAttempt) (db : List DAttempt) :
    List DAttempt × Option PyErr :=
  let eligible := db.filter eligibleCheckout
  if eligible.isEmpty then (db, none)
  else
    match processAll proc eligible with
    | .error e => (db, some e)
    | .ok _ =>
      (db.map (fun a =>
        if eligibleCheckout a then
          match proc a with
          | .ok b => b
          | .error _ => a
        else a), none)

/-- Concrete static upload used by the C1 witness: the attempt with id 2
raises. -/
def witnessUploadS : DAttempt → Except PyErr Unit :=
  fun a => if a.aid = 2 then .error (.valueError "boom") else .ok ()

/-- Concrete metadata upload used by the C1 witness: always succeeds. -/
def witnessUploadM : DAttempt → Except PyErr Unit := fun _ => .ok ()

/-- The three eligible, queued attempts of the C1 witness batch. -/
def witnessBatch : List DAttempt :=
  [⟨1, true, true, true, none⟩, ⟨2, true, true, true, none⟩, ⟨3, true, true, true, none⟩]

/-- A child process handle as seen by `terminate` (balaio.py): its pid and the
exit-status query `poll()`, indexed by how many times it has been polled since
the terminate request (`None` while running, the exit status after exit). -/
structure PChild where
  pid : Nat
  poll : Nat → Option Int

/-- Python falsiness of `p.poll()`'s result: `None` (still running) and exit
status `0` are both falsy. -/
def pollFalsy : Option Int → Bool
  | none => true
  | some st => decide (st = 0)

/-- The per-child grace loop of `terminate` (balaio.py, lines 52-61): `for
t_try in range(10)`, keep waiting (0.5 s sleep) while `not p.poll()`, break on
a truthy status, and `p.kill()` in the for-else once the 10 tries are
exhausted.  Returns true iff `kill()` was invoked. -/
def terminateChildLoop (p : PChild) : Nat → Nat → Bool
  | 0, _ => true
  | n + 1, t => if pollFalsy (p.poll t) then terminateChildLoop p n (t + 1) else false

/-- One child's terminate-then-maybe-kill treatment (balaio.py, lines 49-62). -/
def terminate_child (p : PChild) : Bool :=
  terminateChildLoop p 10 0

/-- Embedding of `terminate` (balaio.py, lines 44-62): children in reverse
start order, each sent a terminate request then run through the grace loop;
returns each child's pid paired with whether it was force-killed. -/
def terminate (procs : List PChild) : List (Nat × Bool) :=
  procs.reverse.map (fun p => (p.pid, terminate_child p))

theorem issnTotal_of_digits (l : List Char) :
    ∀ (i : Nat) (acc : Int), (∀ c ∈ l, c.isDigit) →
      issnTotal i acc l =
        .ok (acc + ((List.enumFrom i l).map
          (fun p => ((8 : Int) - (p.1 : Int)) * ((p.2.toNat : Int) - 48))).sum) := by
  induction l with
  | nil => intro i acc _; simp [issnTotal]
  | cons c cs ih =>
    intro i acc h
    have hc : c.isDigit := h c (List.mem_cons_self c cs)
    have h48 : 48 ≤ c.toNat := by
      have h2 := (Bool.and_eq_true _ _).mp hc
      have h3 : c.val ≥ 48 := of_decide_eq_true h2.1
      exact UInt32.le_def.mp h3
    have hrest : ∀ x ∈ cs, x.isDigit := fun x hx => h x (List.mem_cons_of_mem c hx)
    simp only [issnTotal, pyCharToInt, hc, if_true]
    rw [ih (i + 1) _ hrest]
    simp only [List.enumFrom, List.map_cons, List.sum_cons]
    congr 1
    have : ((c.toNat - 48 : Nat) : Int) = (c.toNat : Int) - 48 := by omega
    rw [this]
    ring

theorem issnTotal_of_nondigit (l : List Char) :
    ∀ (i : Nat) (acc : Int), (∃ c ∈ l, ¬ c.isDigit) →
      issnTotal i acc l = .error (.valueError intErrMsg) := by
  induction l with
  | nil => intro i acc h; exact absurd h (by simp)
  | cons c cs ih =>
    intro i acc h
    by_cases hc : c.isDigit
    · simp only [issnTotal, pyCharToInt, hc, if_true]
      apply ih
      rcases h with ⟨x, hx, hxd⟩
      rcases List.mem_cons.mp hx with rfl | hx2
      · exact absurd hc hxd
      · exact ⟨x, hx2, hxd⟩
    · simp [issnTotal, pyCharToInt, hc]

/-- C4 counterexample: on the 9-character input `"12-34-561"` (two hyphens) the
claim's check-digit algorithm — weighted sum over the first 7 post-hyphen-removal
characters — yields `'X'`, which differs from the final character `'1'`, so the
claim predicts a check-digit error; yet the source validates the input and
returns it unchanged, because its sum ranges over all-but-the-last post-removal
characters (here only 6 of them). -/
theorem validate_issn_first7_counterexample :
    calcCheckDigitIssnSpecFirst7 (pys "12-34-561") = .ok ['X']
    ∧ (pys "12-34-561").getLast? = some '1'
    ∧ (['X'] : PyStr) ≠ ['1']
    ∧ validate_issn (.str (pys "12-34-561")) = .ok (pys "12-34-561") := by
  refine ⟨by decide, by decide, by decide, by decide⟩

/-- C4 (amended): strict ISSN validation checks in order — text type (else the
distinct type error), length exactly 9 (else the length error), hyphen presence
(else the format error), and the check digit (weighted sum `(8 - i) * digit_i`
over all post-hyphen-removal characters except the last, mod 11, with 0 for
remainder 0, else `11 - remainder`, rendering 10 as `'X'`) equal to the final
character (else the check-digit error); when all conditions hold the ISSN is
returned unchanged, e.g. `"0102-6720"` validates with computed check digit
`'0'`. -/
theorem validate_issn_ordered_checks :
    (validate_issn .nonText = .error (.typeError "Invalid type"))
    ∧ (∀ s : PyStr, s.length ≠ 9 →
        validate_issn (.str s) = .error (.valueError "Invalid length"))
    ∧ (∀ s : PyStr, s.length = 9 → '-' ∉ s →
        validate_issn (.str s) = .error (.valueError "Invalid format"))
    ∧ (∀ s : PyStr, s.length = 9 → '-' ∈ s → ∀ cd, calc_check_digit_issn s = .ok cd →
        ∀ c, s.getLast? = some c → cd ≠ [c] →
        validate_issn (.str s) = .error (.valueError "Invaid ISSN"))
    ∧ (∀ s : PyStr, s.length = 9 → '-' ∈ s → ∀ cd, calc_check_digit_issn s = .ok cd →
        ∀ c, s.getLast? = some c → cd = [c] →
        validate_issn (.str s) = .ok s)
    ∧ (∀ s : PyStr, (∀ c ∈ (s.filter (fun c => c ≠ '-')).dropLast, c.isDigit) →
        calc_check_digit_issn s =
          .ok (issnCheckDigitOfTotal
            (((s.filter (fun c => c ≠ '-')).dropLast.enum.map
              (fun p => ((8 : Int) - (p.1 : Int)) * ((p.2.toNat : Int) - 48))).sum)))
    ∧ (calc_check_digit_issn (pys "0102-6720") = .ok ['0'])
    ∧ (validate_issn (.str (pys "0102-6720")) = .ok (pys "0102-6720")) := by
  refine ⟨rfl, ?_, ?_, ?_, ?_, ?_, by decide, by decide⟩
  · intro s h; simp [validate_issn, h]
  · intro s h9 hh; simp [validate_issn, h9, hh]
  · intro s h9 hh cd hcd c hlast hne
    simp [validate_issn, h9, hh, hcd, hlast, hne]
  · intro s h9 hh cd hcd c hlast heq
    simp [validate_issn, h9, hh, hcd, hlast, heq]
  · intro s hdig
    simp only [calc_check_digit_issn]
    rw [issnTotal_of_digits _ 0 0 hdig]
    simp [List.enum]

/-- Witness for the amended C4 theorem: each hypothesis-bearing clause applied
at a concrete input. -/
theorem validate_issn_ordered_checks_witness :
    validate_issn (.str (pys "abc")) = .error (.valueError "Invalid length")
    ∧ validate_issn (.str (pys "012345678")) = .error (.valueError "Invalid format")
    ∧ validate_issn (.str (pys "0102-6721")) = .error (.valueError "Invaid ISSN")
    ∧ validate_issn (.str (pys "0102-6720")) = .ok (pys "0102-6720")
    ∧ calc_check_digit_issn (pys "0102-6720") =
        .ok (issnCheckDigitOfTotal
          ((((pys "0102-6720").filter (fun c => c ≠ '-')).dropLast.enum.map
            (fun p => ((8 : Int) - (p.1 : Int)) * ((p.2.toNat : Int) - 48))).sum)) := by
  refine ⟨?_, ?_, ?_, ?_, ?_⟩
  · exact validate_issn_ordered_checks.2.1 (pys "abc") (by decide)
  · exact validate_issn_ordered_checks.2.2.1 (pys "012345678") (by decide) (by decide)
  · exact validate_issn_ordered_checks.2.2.2.1 (pys "0102-6721") (by decide) (by decide)
      ['0'] (by decide) '1' (by decide) (by decide)
  · exact validate_issn_ordered_checks.2.2.2.2.1 (pys "0102-6720") (by decide) (by decide)
      ['0'] (by decide) '0' (by decide) (by decide)
  · exact validate_issn_ordered_checks.2.2.2.2.2.1 (pys "0102-6720") (by decide)

/-- C10 counterexample: `"--123456X"` is 9 characters with a hyphen and its
first seven post-hyphen-removal characters include the non-digit `'X'` (the
seventh), yet strict validation raises the named check-digit error `"Invaid
ISSN"` — not a digit-conversion error — because the source converts only the
post-removal characters except the last; the boolean convenience still returns
false. -/
theorem validate_issn_nondigit_counterexample :
    (∃ c ∈ ((pys "--123456X").filter (fun c => c ≠ '-')).take 7, ¬ c.isDigit)
    ∧ validate_issn (.str (pys "--123456X")) = .error (.valueError "Invaid ISSN")
    ∧ PyErr.valueError "Invaid ISSN" ≠ .valueError intErrMsg
    ∧ is_valid_issn (.str (pys "--123456X")) = false := by
  refine ⟨⟨'X', by decide, by decide⟩, by decide, by decide, by decide⟩

/-- C10 (amended): for every 9-character text containing a hyphen in which some
post-hyphen-removal character other than the last is not a decimal digit,
strict validation raises the `ValueError` arising from `int()` inside the
check-digit computation — distinct from the four named conditions — and
`is_valid_issn` returns false. -/
theorem validate_issn_nondigit (s : PyStr) (h9 : s.length = 9) (hh : '-' ∈ s)
    (hnd : ∃ c ∈ (s.filter (fun c => c ≠ '-')).dropLast, ¬ c.isDigit) :
    validate_issn (.str s) = .error (.valueError intErrMsg)
    ∧ is_valid_issn (.str s) = false := by
  have hcalc : calc_check_digit_issn s = .error (.valueError intErrMsg) := by
    simp only [calc_check_digit_issn]
    rw [issnTotal_of_nondigit _ 0 0 hnd]
  constructor
  · simp [validate_issn, h9, hh, hcalc]
  · simp [is_valid_issn, validate_issn, h9, hh, hcalc]

theorem firstOccur_isPrefix (pat : PyStr) :
    ∀ (l : PyStr) (p : Nat), firstOccur? pat l = some p → pat <+: l.drop p := by
  intro l
  induction l with
  | nil =>
    intro p h
    by_cases hp : pat <+: ([] : PyStr)
    · simp only [firstOccur?, if_pos hp] at h
      cases h
      simpa using hp
    · simp [firstOccur?, hp] at h
  | cons c t ih =>
    intro p h
    by_cases hp : pat <+: (c :: t)
    · simp only [firstOccur?, if_pos hp] at h
      cases h
      simpa using hp
    · simp only [firstOccur?, if_neg hp, Option.map_eq_some'] at h
      rcases h with ⟨q, hq, rfl⟩
      simpa using ih q hq

theorem firstOccur_min (pat : PyStr) :
    ∀ (l : PyStr) (p : Nat), firstOccur? pat l = some p →
      ∀ q, pat <+: l.drop q → p ≤ q := by
  intro l
  induction l with
  | nil =>
    intro p h q _
    by_cases hp : pat <+: ([] : PyStr)
    · simp only [firstOccur?, if_pos hp] at h
      cases h
      exact Nat.zero_le q
    · simp [firstOccur?, hp] at h
  | cons c t ih =>
    intro p h q hq
    by_cases hp : pat <+: (c :: t)
    · simp only [firstOccur?, if_pos hp] at h
      cases h
      exact Nat.zero_le q
    · simp only [firstOccur?, if_neg hp, Option.map_eq_some'] at h
      rcases h with ⟨r, hr, rfl⟩
      cases q with
      | zero => exact absurd (by simpa using hq) hp
      | succ q2 =>
        have := ih r hr q2 (by simpa using hq)
        omega

theorem firstOccur_of_prefix (pat : PyStr) :
    ∀ (l : PyStr) (q : Nat), pat <+: l.drop q →
      ∃ p, firstOccur? pat l = some p := by
  intro l
  induction l with
  | nil =>
    intro q hq
    simp only [List.drop_nil] at hq
    exact ⟨0, by simp [firstOccur?, hq]⟩
  | cons c t ih =>
    intro q hq
    by_cases hp : pat <+: (c :: t)
    · exact ⟨0, by simp [firstOccur?, hp]⟩
    · cases q with
      | zero => exact absurd (by simpa using hq) hp
      | succ q2 =>
        rcases ih q2 (by simpa using hq) with ⟨p, hp2⟩
        exact ⟨p + 1, by simp [firstOccur?, hp, hp2]⟩

theorem issueSupplLabel_isPrefix (s : PyStr) (p : Nat) :
    issueSupplLabel s p <+: s.drop p := by
  cases h : firstOccur? [' '] (s.drop p) with
  | none => simp only [issueSupplLabel, h]; exact List.prefix_refl _
  | some q => simp only [issueSupplLabel, h]; exact List.take_prefix q (s.drop p)

theorem supMarker_prefix_label (s : PyStr) (p : Nat)
    (hp : supMarker <+: (s.map Char.toLower).drop p) :
    supMarker <+: (issueSupplLabel s p).map Char.toLower := by
  have hFull : supMarker <+: (s.drop p).map Char.toLower := by
    rw [List.map_drop]; exact hp
  cases hsp : firstOccur? [' '] (s.drop p) with
  | none => simp only [issueSupplLabel, hsp]; exact hFull
  | some q =>
    simp only [issueSupplLabel, hsp]
    have hq3 : 3 ≤ q := by
      by_contra hlt
      push_neg at hlt
      obtain ⟨t1, ht1⟩ := firstOccur_isPrefix [' '] (s.drop p) q hsp
      obtain ⟨t2, ht2⟩ := hFull
      have h1 : (s.drop p)[q]? = some ' ' := by
        have h0 : ((s.drop p).drop q)[0]? = some ' ' := by rw [← ht1]; simp
        rwa [List.getElem?_drop, Nat.add_zero] at h0
      have h2 : ((s.drop p).map Char.toLower)[q]? = some ' ' := by
        rw [List.getElem?_map, h1]
        rfl
      have h3 : supMarker[q]? = some ' ' := by
        rw [← ht2, List.getElem?_append] at h2
        simpa [show q < supMarker.length from by simpa [supMarker] using hlt] using h2
      interval_cases q <;> revert h3 <;> decide
    rw [List.map_take]
    exact List.prefix_take_iff.mpr ⟨hFull, by simpa [supMarker] using hq3⟩

theorem find_issueSupplLabel (s : PyStr) (p : Nat)
    (hp : firstOccur? supMarker (s.map Char.toLower) = some p) :
    firstOccur? (issueSupplLabel s p) s = some p := by
  have hpre : supMarker <+: (s.map Char.toLower).drop p :=
    firstOccur_isPrefix _ _ _ hp
  have hlab : issueSupplLabel s p <+: s.drop p := issueSupplLabel_isPrefix s p
  have hmark : supMarker <+: (issueSupplLabel s p).map Char.toLower :=
    supMarker_prefix_label s p hpre
  obtain ⟨r, hr⟩ := firstOccur_of_prefix (issueSupplLabel s p) s p hlab
  have hrp : r ≤ p := firstOccur_min _ _ _ hr p hlab
  rcases Nat.lt_or_ge r p with hlt | hge
  · exfalso
    have hrpre : issueSupplLabel s p <+: s.drop r := firstOccur_isPrefix _ _ _ hr
    have hsup : supMarker <+: (s.map Char.toLower).drop r := by
      have h1 := hmark.trans (hrpre.map Char.toLower)
      rwa [List.map_drop] at h1
    have := firstOccur_min supMarker (s.map Char.toLower) p hp r hsup
    omega
  · have hreq : r = p := Nat.le_antisymm hrp hge
    rwa [hreq] at hr

/-- C9: for absent input (`None`) and for the empty string, `parse_issue_tag`
returns all three components absent — the number is `None`, not the empty
string — because the source's truthiness guard `if issue_tag_content:` treats
both as false. -/
theorem parse_issue_tag_empty :
    parse_issue_tag none = (none, none, none)
    ∧ parse_issue_tag (some []) = (none, none, none) := ⟨rfl, rfl⟩

/-- C6 counterexample: in `"A Sup"` the marker starts at index 2 of the
lowercased text, and the claim says the number is the text preceding the
marker, trimmed — `"A"`; the source instead takes it from the lowercased text
and returns `"a"`. -/
theorem parse_issue_tag_lowercase_counterexample :
    firstOccur? supMarker ((pys "A Sup").map Char.toLower) = some 2
    ∧ parse_issue_tag (some (pys "A Sup")) = (some (pys "a"), some (pys "Sup"), none)
    ∧ pyStrip ((pys "A Sup").take 2) = pys "A"
    ∧ pys "a" ≠ pys "A" := by
  refine ⟨by decide, by decide, by decide, by decide⟩

/-- C6 (amended): for nonempty issue-tag text whose lowercasing contains the
marker `"sup"` first at index `p`, parsing returns as number the lowercased
text preceding the marker, trimmed (absent if empty); as label the
original-case substring from the marker up to but excluding the next space; and
as value the original-case remainder after the label, trimmed (absent if
empty).  For nonempty text without the marker the whole text is the number with
label and value absent.  The claim's four examples hold as stated. -/
theorem parse_issue_tag_spec :
    (∀ (s : PyStr) (p : Nat), s ≠ [] →
      firstOccur? supMarker (s.map Char.toLower) = some p →
      parse_issue_tag (some s) =
        ((if pyStrip ((s.map Char.toLower).take p) = [] then none
          else some (pyStrip ((s.map Char.toLower).take p))),
         some (issueSupplLabel s p),
         (if pyStrip (s.drop (p + (issueSupplLabel s p).length)) = [] then none
          else some (pyStrip (s.drop (p + (issueSupplLabel s p).length))))))
    ∧ (∀ s : PyStr, s ≠ [] → firstOccur? supMarker (s.map Char.toLower) = none →
        parse_issue_tag (some s) = (some s, none, none))
    ∧ parse_issue_tag (some (pys "2")) = (some (pys "2"), none, none)
    ∧ parse_issue_tag (some (pys "Suppl")) = (none, some (pys "Suppl"), none)
    ∧ parse_issue_tag (some (pys "3 Suppl 1")) =
        (some (pys "3"), some (pys "Suppl"), some (pys "1"))
    ∧ parse_issue_tag (some (pys "Suppl 1")) =
        (none, some (pys "Suppl"), some (pys "1")) := by
  refine ⟨?_, ?_, by decide, by decide, by decide, by decide⟩
  · intro s p hs hp
    have hfind : pyFind (issueSupplLabel s p) s = (p : Int) := by
      simp [pyFind, find_issueSupplLabel s p hp]
    have hslice :
        pySliceFrom s (pyFind (issueSupplLabel s p) s + ((issueSupplLabel s p).length : Int))
          = s.drop (p + (issueSupplLabel s p).length) := by
      rw [hfind]
      unfold pySliceFrom
      rw [if_pos (by positivity)]
      congr 1
    simp only [parse_issue_tag, if_neg hs, hp]
    rw [hslice]
  · intro s hs hp
    simp only [parse_issue_tag, if_neg hs, hp]

/-- Witness for the amended C6 theorem: the marker clause applied at
`"3 Suppl 1"` (marker at index 2) and the no-marker clause at `"2"`. -/
theorem parse_issue_tag_spec_witness :
    parse_issue_tag (some (pys "3 Suppl 1")) =
      ((if pyStrip (((pys "3 Suppl 1").map Char.toLower).take 2) = [] then none
        else some (pyStrip (((pys "3 Suppl 1").map Char.toLower).take 2))),
       some (issueSupplLabel (pys "3 Suppl 1") 2),
       (if pyStrip ((pys "3 Suppl 1").drop (2 + (issueSupplLabel (pys "3 Suppl 1") 2).length)) = []
          then none
          else some (pyStrip ((pys "3 Suppl 1").drop
            (2 + (issueSupplLabel (pys "3 Suppl 1") 2).length)))))
    ∧ parse_issue_tag (some (pys "2")) = (some (pys "2"), none, none) :=
  ⟨parse_issue_tag_spec.1 (pys "3 Suppl 1") 2 (by decide) (by decide),
   parse_issue_tag_spec.2.1 (pys "2") (by decide) (by decide)⟩

/-- C7 counterexample: with a truthy number and an absent supplement the source
returns `(None, None)` — neither side of the pair is non-absent, refuting the
claim that exactly one always is. -/
theorem supplement_type_counterexample :
    supplement_type (some (pys "1")) (some (pys "2")) none = (none, none) := rfl

/-- C7 (amended): the supplement goes to the number axis when the number is
present and nonempty (Python truthiness), otherwise to the volume axis; at most
one of the returned pair is non-absent, and exactly one is non-absent precisely
when the supplement itself is non-absent. -/
theorem supplement_type_axis (volume number suppl : Option PyStr) :
    (pyTruthy number = true → supplement_type volume number suppl = (none, suppl))
    ∧ (pyTruthy number = false → supplement_type volume number suppl = (suppl, none))
    ∧ ((supplement_type volume number suppl).1 = none
        ∨ (supplement_type volume number suppl).2 = none)
    ∧ (((supplement_type volume number suppl).1.isSome
        ∨ (supplement_type volume number suppl).2.isSome) ↔ suppl.isSome) := by
  unfold supplement_type
  by_cases h : pyTruthy number <;> simp [h]

/-- Witness for the amended C7 theorem at concrete inputs. -/
theorem supplement_type_axis_witness :
    supplement_type none (some (pys "2")) (some (pys "1")) = (none, some (pys "1"))
    ∧ supplement_type (some (pys "7")) none (some (pys "1")) = (some (pys "1"), none) :=
  ⟨(supplement_type_axis none (some (pys "2")) (some (pys "1"))).1 rfl,
   (supplement_type_axis (some (pys "7")) none (some (pys "1"))).2.1 rfl⟩

/-- Witness for the amended C10 theorem at the concrete input `"12-3X-567"`. -/
theorem validate_issn_nondigit_witness :
    validate_issn (.str (pys "12-3X-567")) = .error (.valueError intErrMsg)
    ∧ is_valid_issn (.str (pys "12-3X-567")) = false :=
  validate_issn_nondigit (pys "12-3X-567") (by decide) (by decide)
    ⟨'X', by decide, by decide⟩

theorem parseDigits_aux (L : List Nat) :
    ∀ a : Nat,
      ((L.reverse.map (fun d => d + 48)).foldl (fun a d => a * 10 + (d - 48)) a)
        = a * 10 ^ L.length + Nat.ofDigits 10 L := by
  induction L with
  | nil => intro a; simp [Nat.ofDigits]
  | cons d L ih =>
    intro a
    rw [List.reverse_cons, List.map_append, List.foldl_append, ih a]
    simp only [List.map_cons, List.map_nil, List.foldl_cons, List.foldl_nil,
      Nat.ofDigits_cons, List.length_cons, Nat.add_sub_cancel]
    rw [pow_succ]
    ring

theorem parseDigits_decRepr (n : Nat) : parseDigits (decRepr n) = n := by
  unfold parseDigits decRepr
  by_cases h : n = 0
  · simp [h]
  · rw [if_neg h, parseDigits_aux (Nat.digits 10 n) 0]
    simp [Nat.ofDigits_digits]

theorem decRepr_digits (n : Nat) :
    decRepr n ≠ [] ∧ ∀ b ∈ decRepr n, 48 ≤ b ∧ b ≤ 57 := by
  unfold decRepr
  by_cases h : n = 0
  · simp [h]
  · rw [if_neg h]
    constructor
    · simp [h, Nat.digits_ne_nil_iff_ne_zero]
    · intro b hb
      simp only [List.mem_map, List.mem_reverse] at hb
      rcases hb with ⟨d, hd, rfl⟩
      have := Nat.digits_lt_base (by norm_num) hd
      omega

theorem readLine_frame (a : List Nat) :
    ∀ r : List Nat, 10 ∉ a → readLine (a ++ 10 :: r) = (a ++ [10], r) := by
  induction a with
  | nil => intro r _; simp [readLine]
  | cons b a' ih =>
    intro r ha
    have hb : b ≠ 10 := fun hbe => ha (hbe ▸ List.mem_cons_self _ _)
    have ha' : 10 ∉ a' := fun hmem => ha (List.mem_cons_of_mem _ hmem)
    simp [readLine, hb, ih r ha']

theorem splitSpace_no32 (a : List Nat) (ha : 32 ∉ a) : splitSpace a = [a] := by
  induction a with
  | nil => rfl
  | cons b a' ih =>
    have hb : b ≠ 32 := fun hbe => ha (hbe ▸ List.mem_cons_self _ _)
    have ha' := ih (fun hmem => ha (List.mem_cons_of_mem _ hmem))
    simp [splitSpace, hb, ha']

theorem splitSpace_append (a : List Nat) :
    ∀ b : List Nat, 32 ∉ a → splitSpace (a ++ 32 :: b) = a :: splitSpace b := by
  induction a with
  | nil => intro b _; simp [splitSpace]
  | cons c a' ih =>
    intro b ha
    have hc : c ≠ 32 := fun hce => ha (hce ▸ List.mem_cons_self _ _)
    have ha' : 32 ∉ a' := fun hmem => ha (List.mem_cons_of_mem _ hmem)
    simp [splitSpace, hc, ih b ha']

theorem dropWhile_eq_self_of_all (p : Nat → Bool) (x : List Nat)
    (hx : ∀ b ∈ x, p b = false) : x.dropWhile p = x := by
  cases x with
  | nil => rfl
  | cons b t => simp [List.dropWhile_cons, hx b (List.mem_cons_self _ _)]

theorem byteStripWs_digits_newline (l : List Nat) (hl : l ≠ [])
    (hd : ∀ b ∈ l, isByteSpace b = false) : byteStripWs (l ++ [10]) = l := by
  unfold byteStripWs
  have h1 : (l ++ [10]).dropWhile isByteSpace = l ++ [10] := by
    obtain ⟨c, l2, rfl⟩ := List.exists_cons_of_ne_nil hl
    simp [List.dropWhile_cons, hd c (List.mem_cons_self _ _)]
  rw [h1, List.reverse_append]
  have h2 : isByteSpace 10 = true := by decide
  have h3 : l.reverse.dropWhile isByteSpace = l.reverse :=
    dropWhile_eq_self_of_all _ _ (fun b hb => hd b (List.mem_reverse.mp hb))
  simp [List.dropWhile_cons, h2, h3]

theorem pyIntBytes_decRepr (n : Nat) : pyIntBytes (decRepr n ++ [10]) = .ok n := by
  obtain ⟨hne, hds⟩ := decRepr_digits n
  have hnospace : ∀ b ∈ decRepr n, isByteSpace b = false := by
    intro b hb
    have := hds b hb
    simp only [isByteSpace, Bool.or_eq_false_iff, decide_eq_false_iff_not]
    omega
  have hall : (decRepr n).all isByteDigit = true := by
    rw [List.all_eq_true]
    intro b hb
    have := hds b hb
    simp only [isByteDigit, Bool.and_eq_true, decide_eq_true_eq]
    omega
  simp only [pyIntBytes, byteStripWs_digits_newline _ hne hnospace]
  rw [if_pos ⟨hne, hall⟩, parseDigits_decRepr]

theorem recvLoop_nil {α : Type} (digest : List Nat → List Nat) (deser : List Nat → Option α) :
    ∀ fuel, recvLoop digest deser fuel [] = ([], none) := by
  intro fuel
  cases fuel with
  | zero => rfl
  | succ f => simp [recvLoop, readLine]

theorem splitSpace_frameHeader (dg : List Nat) (n : Nat) (h32 : 32 ∉ dg) :
    splitSpace (dg ++ [32] ++ decRepr n ++ [10]) = [dg, decRepr n ++ [10]] := by
  have h1 : dg ++ [32] ++ decRepr n ++ [10] = dg ++ 32 :: (decRepr n ++ [10]) := by simp
  rw [h1, splitSpace_append _ _ h32, splitSpace_no32]
  intro hb
  rcases List.mem_append.mp hb with hb1 | hb2
  · have := (decRepr_digits n).2 32 hb1
    omega
  · simp only [List.mem_singleton] at hb2
    omega

theorem recvLoop_good_frame {α : Type} (digest : List Nat → List Nat)
    (deser : List Nat → Option α) (body rest : List Nat) (m : α)
    (h10 : 10 ∉ digest body) (h32 : 32 ∉ digest body) (hm : deser body = some m)
    (fuel : Nat) :
    recvLoop digest deser (fuel + 1) (frameHeader (digest body) body.length ++ body ++ rest)
      = (m :: (recvLoop digest deser fuel rest).1, (recvLoop digest deser fuel rest).2) := by
  have hstream : frameHeader (digest body) body.length ++ body ++ rest
      = (digest body ++ [32] ++ decRepr body.length) ++ 10 :: (body ++ rest) := by
    simp [frameHeader]
  have hnot10 : 10 ∉ digest body ++ [32] ++ decRepr body.length := by
    intro hmem
    rcases List.mem_append.mp hmem with hmem1 | hmem2
    · rcases List.mem_append.mp hmem1 with hmem3 | hmem4
      · exact h10 hmem3
      · simp at hmem4
    · have := (decRepr_digits body.length).2 10 hmem2
      omega
  have hheader : (digest body ++ [32] ++ decRepr body.length) ++ [10]
      = digest body ++ [32] ++ decRepr body.length ++ [10] := by simp
  simp only [recvLoop]
  rw [hstream, readLine_frame _ _ hnot10]
  simp only [hheader, List.append_eq_nil, List.cons_ne_self, and_false, if_false,
    splitSpace_frameHeader _ _ h32, pyIntBytes_decRepr, List.take_left, List.drop_left,
    if_pos rfl, hm]
  cases hres : recvLoop digest deser fuel rest with
  | mk ms e => rfl

theorem recvLoop_skip_frame {α : Type} (digest : List Nat → List Nat)
    (deser : List Nat → Option α) (dg body' rest : List Nat)
    (h10 : 10 ∉ dg) (h32 : 32 ∉ dg) (hne : dg ≠ digest body') (fuel : Nat) :
    recvLoop digest deser (fuel + 1) (frameHeader dg body'.length ++ body' ++ rest)
      = recvLoop digest deser fuel rest := by
  have hstream : frameHeader dg body'.length ++ body' ++ rest
      = (dg ++ [32] ++ decRepr body'.length) ++ 10 :: (body' ++ rest) := by
    simp [frameHeader]
  have hnot10 : 10 ∉ dg ++ [32] ++ decRepr body'.length := by
    intro hmem
    rcases List.mem_append.mp hmem with hmem1 | hmem2
    · rcases List.mem_append.mp hmem1 with hmem3 | hmem4
      · exact h10 hmem3
      · simp at hmem4
    · have := (decRepr_digits body'.length).2 10 hmem2
      omega
  have hheader : (dg ++ [32] ++ decRepr body'.length) ++ [10]
      = dg ++ [32] ++ decRepr body'.length ++ [10] := by simp
  simp only [recvLoop]
  rw [hstream, readLine_frame _ _ hnot10]
  simp only [hheader, List.append_eq_nil, List.cons_ne_self, and_false, if_false,
    splitSpace_frameHeader _ _ h32, pyIntBytes_decRepr, List.take_left, List.drop_left,
    if_neg hne]

theorem recvLoop_send {α : Type} (digest : List Nat → List Nat) (ser : α → List Nat)
    (deser : List Nat → Option α) (m : α)
    (h10 : 10 ∉ digest (ser m)) (h32 : 32 ∉ digest (ser m)) (hm : deser (ser m) = some m)
    (fuel : Nat) :
    recvLoop digest deser (fuel + 1) (send_message digest ser m) = ([m], none) := by
  have hsend : send_message digest ser m
      = frameHeader (digest (ser m)) (ser m).length ++ ser m ++ [] := by
    simp [send_message]
  rw [hsend, recvLoop_good_frame digest deser (ser m) [] m h10 h32 hm fuel,
    recvLoop_nil digest deser fuel]

/-- C3: for every serializable message, a sent frame received over the stream
yields exactly the original value and ends the sequence cleanly; a frame whose
body was corrupted in transit (same length, different digest) is dropped
without being yielded while a subsequent uncorrupted frame is still delivered;
and an empty header read ends the received sequence.  The serializer,
deserializer and digest are the source's parameters, constrained only by
round-tripping and by the digest being free of newline and space bytes (true of
the hex digests the source produces). -/
theorem send_recv_roundtrip {α : Type} (digest : List Nat → List Nat)
    (ser : α → List Nat) (deser : List Nat → Option α)
    (hdg : ∀ b, 10 ∉ digest b ∧ 32 ∉ digest b)
    (m : α) (hm : deser (ser m) = some m)
    (m2 : α) (hm2 : deser (ser m2) = some m2)
    (body2 : List Nat) (hlen : body2.length = (ser m).length)
    (hcorrupt : digest body2 ≠ digest (ser m)) :
    recv_messages digest deser (send_message digest ser m) = ([m], none)
    ∧ recv_messages digest deser
        (frameHeader (digest (ser m)) (ser m).length ++ body2 ++ send_message digest ser m2)
      = ([m2], none)
    ∧ recv_messages (α := α) digest deser [] = ([], none) := by
  refine ⟨?_, ?_, rfl⟩
  · unfold recv_messages
    exact recvLoop_send digest ser deser m (hdg (ser m)).1 (hdg (ser m)).2 hm _
  · unfold recv_messages
    rw [← hlen]
    rw [recvLoop_skip_frame digest deser (digest (ser m)) body2
      (send_message digest ser m2) (hdg (ser m)).1 (hdg (ser m)).2
      (fun h => hcorrupt h.symm) _]
    have hpos : 1 ≤ (frameHeader (digest (ser m)) body2.length ++ body2
        ++ send_message digest ser m2).length := by
      simp only [List.length_append, frameHeader, List.length_cons, List.length_singleton]
      omega
    obtain ⟨K, hK⟩ : ∃ K, (frameHeader (digest (ser m)) body2.length ++ body2
        ++ send_message digest ser m2).length = K + 1 :=
      ⟨(frameHeader (digest (ser m)) body2.length ++ body2
        ++ send_message digest ser m2).length - 1, by omega⟩
    rw [hK]
    exact recvLoop_send digest ser deser m2 (hdg (ser m2)).1 (hdg (ser m2)).2 hm2 K

/-- Witness for the C3 theorem at concrete digest, serializer and messages:
the body byte `[5]` of the first frame is corrupted to `[6]`. -/
theorem send_recv_roundtrip_witness :
    recv_messages witnessDigest witnessDeser (send_message witnessDigest witnessSer 5)
      = ([5], none)
    ∧ recv_messages witnessDigest witnessDeser
        (frameHeader (witnessDigest (witnessSer 5)) (witnessSer 5).length ++ [6]
          ++ send_message witnessDigest witnessSer 7) = ([7], none)
    ∧ recv_messages (α := Nat) witnessDigest witnessDeser [] = ([], none) :=
  send_recv_roundtrip witnessDigest witnessSer witnessDeser
    (by
      intro b
      constructor <;> · simp [witnessDigest]; omega)
    5 rfl 7 rfl [6] rfl (by decide)

/-- C8: for every item — bare attempt or 4-tuple — whose attempt's validity
flag is not exactly True, the stage's `transform` returns the item unchanged
(no error) and `validate` is never invoked, for every choice of `validate` and
notifier. -/
theorem transform_skips_invalid (validateF : VItem → Nat × String)
    (notifyF : VAttempt → Nat → Nat × String → Except PyErr Unit) (item : VItem)
    (h : (vitemAttempt item).is_valid ≠ some true) :
    transform validateF notifyF item = (.ok item, false) := by
  unfold transform
  rw [if_pos]
  simp [attempt_is_valid, h]

/-- Witness for the C8 theorem: both input shapes, one with flag False and one
with flag unset. -/
theorem transform_skips_invalid_witness :
    transform witnessValidate witnessNotify (.bare ⟨some false, 1⟩)
      = (.ok (.bare ⟨some false, 1⟩), false)
    ∧ transform witnessValidate witnessNotify (.tup ⟨none, 2⟩ 0 0 0)
      = (.ok (.tup ⟨none, 2⟩ 0 0 0), false) :=
  ⟨transform_skips_invalid witnessValidate witnessNotify (.bare ⟨some false, 1⟩) (by decide),
   transform_skips_invalid witnessValidate witnessNotify (.tup ⟨none, 2⟩ 0 0 0) (by decide)⟩

theorem uploadExtFold_dict_other (uriOf : String → String) (aid ext k : String)
    (hk : k ≠ ext) (entries : List SEntry) :
    ∀ st, ((entries.foldl (uploadExtStep uriOf aid ext) st).1) k = st.1 k := by
  induction entries with
  | nil => intro st; rfl
  | cons e rest ih =>
    intro st
    rw [List.foldl_cons, ih]
    simp [uploadExtStep, uriDictSet, hk]

theorem uploadExtFold_dict_self (uriOf : String → String) (aid ext : String)
    (entries : List SEntry) :
    ∀ st, ((entries.foldl (uploadExtStep uriOf aid ext) st).1) ext
      = match entries.getLast? with
        | none => st.1 ext
        | some e => some (uriOf (get_static_path "articles" aid e.name)) := by
  induction entries using List.reverseRecOn with
  | nil => intro st; rfl
  | append_singleton l e _ =>
    intro st
    rw [List.foldl_append, List.getLast?_concat]
    simp [uploadExtStep, uriDictSet]

theorem uploadExtFold_uploads (uriOf : String → String) (aid ext : String)
    (entries : List SEntry) :
    ∀ st, (∀ u ∈ st.2, u ∈ (entries.foldl (uploadExtStep uriOf aid ext) st).2)
      ∧ ∀ e ∈ entries,
          (get_static_path "articles" aid e.name, e.content)
            ∈ (entries.foldl (uploadExtStep uriOf aid ext) st).2 := by
  induction entries with
  | nil => intro st; exact ⟨fun u hu => hu, by simp⟩
  | cons e rest ih =>
    intro st
    rw [List.foldl_cons]
    constructor
    · intro u hu
      exact (ih _).1 u (by simp [uploadExtStep, hu])
    · intro e2 he2
      rcases List.mem_cons.mp he2 with rfl | h2
      · exact (ih _).1 _ (by simp [uploadExtStep])
      · exact (ih _).2 e2 h2

theorem pyDictSet_fresh (d : List (String × List Nat)) (k : String) (v : List Nat)
    (hk : ∀ p ∈ d, p.1 ≠ k) : pyDictSet d k v = d ++ [(k, v)] := by
  induction d with
  | nil => rfl
  | cons p rest ih =>
    have hp : p.1 ≠ k := hk p (List.mem_cons_self _ _)
    simp only [pyDictSet, if_neg hp, List.cons_append]
    rw [ih (fun q hq => hk q (List.mem_cons_of_mem _ hq))]

theorem pyDictFold_append (entries : List SEntry) :
    ∀ d : List (String × List Nat),
      (∀ p ∈ d, ∀ e ∈ entries, p.1 ≠ e.name) →
      (entries.map SEntry.name).Nodup →
      entries.foldl (fun d e => pyDictSet d e.name e.content) d
        = d ++ entries.map (fun e => (e.name, e.content)) := by
  induction entries with
  | nil => intro d _ _; simp
  | cons e rest ih =>
    intro d hd hnd
    rw [List.foldl_cons,
      pyDictSet_fresh d e.name e.content (fun p hp => hd p hp e (List.mem_cons_self _ _)),
      ih (d ++ [(e.name, e.content)]) ?hfresh ?hnodup]
    · simp
    case hfresh =>
      intro p hp e2 he2
      rcases List.mem_append.mp hp with hp1 | hp2
      · exact hd p hp1 e2 (List.mem_cons_of_mem _ he2)
      · simp only [List.mem_singleton] at hp2
        subst hp2
        simp only [List.map_cons, List.nodup_cons] at hnd
        intro hcontra
        apply hnd.1
        rw [show (e.name : String) = e2.name from hcontra]
        exact List.mem_map_of_mem SEntry.name he2
    case hnodup =>
      simp only [List.map_cons, List.nodup_cons] at hnd
      exact hnd.2

/-- C5 counterexample: for an attempt whose archive holds no entries at all the
result map has no `'xml'` key and no `'pdf'` key — only `'img'` is always
present — refuting the claim that a 3-key map is returned for every attempt. -/
theorem upload_static_files_counterexample :
    (upload_static_files (fun _ => []) (fun p => p) ⟨"a1", fun _ => []⟩).1 "xml" = none
    ∧ (upload_static_files (fun _ => []) (fun p => p) ⟨"a1", fun _ => []⟩).1 "pdf" = none
    ∧ (upload_static_files (fun _ => []) (fun p => p) ⟨"a1", fun _ => []⟩).1 "img"
        = some ("articles" ++ "/" ++ "a1" ++ "/" ++ "images.zip") := by
  refine ⟨by decide, by decide, by decide⟩

/-- C5 (amended): uploading static assets uploads every matching `xml` and
`pdf` archive entry to its `(articles, aid, name)` destination, and the result
map's key for each of those kinds is present exactly when at least one matching
entry exists, holding the URI of the last one uploaded; all `tif` and `eps`
entries' bytes are bundled (keyed by filename) into a single in-memory zip
uploaded as `images.zip`, whose URI is always recorded under key `img`. -/
theorem upload_static_files_spec (zipF : List (String × List Nat) → List Nat)
    (uriOf : String → String) (attempt : CAttempt) :
    (∀ e ∈ get_static attempt "xml",
      (get_static_path "articles" attempt.aid e.name, e.content)
        ∈ (upload_static_files zipF uriOf attempt).2)
    ∧ (∀ e ∈ get_static attempt "pdf",
      (get_static_path "articles" attempt.aid e.name, e.content)
        ∈ (upload_static_files zipF uriOf attempt).2)
    ∧ (upload_static_files zipF uriOf attempt).1 "xml"
        = (get_static attempt "xml").getLast?.map
            (fun e => uriOf (get_static_path "articles" attempt.aid e.name))
    ∧ (upload_static_files zipF uriOf attempt).1 "pdf"
        = (get_static attempt "pdf").getLast?.map
            (fun e => uriOf (get_static_path "articles" attempt.aid e.name))
    ∧ (upload_static_files zipF uriOf attempt).1 "img"
        = some (uriOf (get_static_path "articles" attempt.aid "images.zip"))
    ∧ (((get_static attempt "tif" ++ get_static attempt "eps").map SEntry.name).Nodup →
        (get_static_path "articles" attempt.aid "images.zip",
          zipF ((get_static attempt "tif" ++ get_static attempt "eps").map
            (fun e => (e.name, e.content))))
          ∈ (upload_static_files zipF uriOf attempt).2) := by
  have hst1 : (["xml", "pdf"].foldl
      (fun st ext => (get_static attempt ext).foldl (uploadExtStep uriOf attempt.aid ext) st)
      ((fun _ => none), []))
      = (get_static attempt "pdf").foldl (uploadExtStep uriOf attempt.aid "pdf")
          ((get_static attempt "xml").foldl (uploadExtStep uriOf attempt.aid "xml")
            ((fun _ => none), [])) := rfl
  simp only [upload_static_files, hst1]
  refine ⟨?_, ?_, ?_, ?_, ?_, ?_⟩
  · intro e he
    apply List.mem_append_left
    exact (uploadExtFold_uploads uriOf attempt.aid "pdf" _ _).1 _
      ((uploadExtFold_uploads uriOf attempt.aid "xml" _ _).2 e he)
  · intro e he
    apply List.mem_append_left
    exact (uploadExtFold_uploads uriOf attempt.aid "pdf" _ _).2 e he
  · show uriDictSet _ "img" _ "xml" = _
    rw [show uriDictSet ((get_static attempt "pdf").foldl (uploadExtStep uriOf attempt.aid "pdf")
        ((get_static attempt "xml").foldl (uploadExtStep uriOf attempt.aid "xml")
          ((fun _ => none), []))).1 "img"
        (uriOf (get_static_path "articles" attempt.aid "images.zip")) "xml"
      = ((get_static attempt "pdf").foldl (uploadExtStep uriOf attempt.aid "pdf")
          ((get_static attempt "xml").foldl (uploadExtStep uriOf attempt.aid "xml")
            ((fun _ => none), []))).1 "xml" from by simp [uriDictSet]]
    rw [uploadExtFold_dict_other uriOf attempt.aid "pdf" "xml" (by decide),
      uploadExtFold_dict_self uriOf attempt.aid "xml"]
    cases hlast : (get_static attempt "xml").getLast? <;> simp
  · show uriDictSet _ "img" _ "pdf" = _
    rw [show uriDictSet ((get_static attempt "pdf").foldl (uploadExtStep uriOf attempt.aid "pdf")
        ((get_static attempt "xml").foldl (uploadExtStep uriOf attempt.aid "xml")
          ((fun _ => none), []))).1 "img"
        (uriOf (get_static_path "articles" attempt.aid "images.zip")) "pdf"
      = ((get_static attempt "pdf").foldl (uploadExtStep uriOf attempt.aid "pdf")
          ((get_static attempt "xml").foldl (uploadExtStep uriOf attempt.aid "xml")
            ((fun _ => none), []))).1 "pdf" from by simp [uriDictSet]]
    rw [uploadExtFold_dict_self uriOf attempt.aid "pdf"]
    cases hlast : (get_static attempt "pdf").getLast? with
    | none =>
      rw [uploadExtFold_dict_other uriOf attempt.aid "xml" "pdf" (by decide)]
      simp
    | some e => simp
  · simp [uriDictSet]
  · intro hnd
    apply List.mem_append_right
    have himg : (["tif", "eps"].foldl
        (fun d ext => (get_static attempt ext).foldl (fun d e => pyDictSet d e.name e.content) d)
        [])
        = (get_static attempt "tif" ++ get_static attempt "eps").foldl
            (fun d e => pyDictSet d e.name e.content) [] := by
      rw [List.foldl_append]
      rfl
    rw [himg, pyDictFold_append _ [] (by simp) hnd]
    simp

/-- Witness for the amended C5 theorem: the upload of the second xml entry and
of the bundled image zip, at a concrete attempt. -/
theorem upload_static_files_spec_witness :
    (get_static_path "articles" "a9" "x2.xml", ([2] : List Nat))
      ∈ (upload_static_files witnessZip witnessUri witnessCAttempt).2
    ∧ (get_static_path "articles" "a9" "images.zip",
        witnessZip ((get_static witnessCAttempt "tif" ++ get_static witnessCAttempt "eps").map
          (fun e => (e.name, e.content))))
      ∈ (upload_static_files witnessZip witnessUri witnessCAttempt).2 :=
  ⟨(upload_static_files_spec witnessZip witnessUri witnessCAttempt).1
      ⟨"x2.xml", [2]⟩ (by decide),
   (upload_static_files_spec witnessZip witnessUri witnessCAttempt).2.2.2.2.2 (by decide)⟩

theorem processAll_error_of_mem (f : DAttempt → Except PyErr DAttempt) :
    ∀ l : List DAttempt, (∃ a ∈ l, ∃ e, f a = .error e) →
      ∃ e, processAll f l = .error e := by
  intro l
  induction l with
  | nil => rintro ⟨a, ha, -⟩; simp at ha
  | cons a rest ih =>
    rintro ⟨b, hb, e, he⟩
    rcases List.mem_cons.mp hb with rfl | hb2
    · exact ⟨e, by simp [processAll, he]⟩
    · cases hfa : f a with
      | error e2 => exact ⟨e2, by simp [processAll, hfa]⟩
      | ok c =>
        rcases ih ⟨b, hb2, e, he⟩ with ⟨e3, he3⟩
        exact ⟨e3, by simp [processAll, hfa, he3]⟩

theorem processAll_ok_of_forall (f : DAttempt → Except PyErr DAttempt) :
    ∀ l : List DAttempt, (∀ a ∈ l, ∃ b, f a = .ok b) →
      ∃ res, processAll f l = .ok res := by
  intro l
  induction l with
  | nil => intro _; exact ⟨[], rfl⟩
  | cons a rest ih =>
    intro h
    obtain ⟨b, hb⟩ := h a (List.mem_cons_self _ _)
    obtain ⟨res, hres⟩ := ih (fun x hx => h x (List.mem_cons_of_mem _ hx))
    exact ⟨b :: res, by simp [processAll, hb, hres]⟩

theorem checkout_procedure_ok (uploadS uploadM : DAttempt → Except PyErr Unit)
    (now : Nat) (a b : DAttempt)
    (h : checkout_procedure uploadS uploadM now a = .ok b) :
    b = { a with checkout_started_at := some now, queued_checkout := false } := by
  simp only [checkout_procedure] at h
  cases h1 : uploadS { a with checkout_started_at := some now } with
  | error e => rw [h1] at h; exact absurd h (by simp)
  | ok u =>
    rw [h1] at h
    cases h2 : uploadM { a with checkout_started_at := some now } with
    | error e => rw [h2] at h; exact absurd h (by simp)
    | ok u2 =>
      rw [h2] at h
      simp only [Except.ok.injEq] at h
      exact h.symm

/-- C1: for every polled batch of eligible attempts (`proceed_to_checkout` and
`pending_checkout` both true), if the checkout procedure raises on any item of
the batch then the whole unit of work is aborted — the committed datastore is
unchanged, so in particular no attempt's `queued_checkout` clearing is
committed — and the exception is re-raised out of the loop; if no item raises,
the whole batch is committed: every eligible attempt's committed record has its
start time set and `queued_checkout` cleared. -/
theorem checkout_batch_transaction (uploadS uploadM : DAttempt → Except PyErr Unit)
    (now : Nat) (db : List DAttempt) :
    ((∃ a ∈ db.filter eligibleCheckout, ∃ e,
        checkout_procedure uploadS uploadM now a = .error e) →
      (run_iteration (checkout_procedure uploadS uploadM now) db).1 = db
      ∧ ∃ e, (run_iteration (checkout_procedure uploadS uploadM now) db).2 = some e)
    ∧ ((∀ a ∈ db.filter eligibleCheckout, ∃ b,
        checkout_procedure uploadS uploadM now a = .ok b) →
      (run_iteration (checkout_procedure uploadS uploadM now) db).2 = none
      ∧ (run_iteration (checkout_procedure uploadS uploadM now) db).1
        = db.map (fun a => if eligibleCheckout a then
            { a with checkout_started_at := some now, queued_checkout := false } else a)) := by
  constructor
  · intro hex
    obtain ⟨e, he⟩ := processAll_error_of_mem _ _ hex
    have hne : ¬ (db.filter eligibleCheckout).isEmpty = true := by
      rw [List.isEmpty_iff]
      intro hnil
      obtain ⟨a, ha, -⟩ := hex
      rw [hnil] at ha
      simp at ha
    unfold run_iteration
    rw [if_neg hne, he]
    exact ⟨rfl, e, rfl⟩
  · intro hall
    by_cases hemp : (db.filter eligibleCheckout).isEmpty = true
    · have hnil : db.filter eligibleCheckout = [] := List.isEmpty_iff.mp hemp
      have hnone : ∀ a ∈ db, eligibleCheckout a = false := by
        intro a ha
        have := List.filter_eq_nil_iff.mp hnil a ha
        simpa using this
      unfold run_iteration
      rw [if_pos hemp]
      refine ⟨rfl, ?_⟩
      have : db.map (fun a => if eligibleCheckout a then
          { a with checkout_started_at := some now, queued_checkout := false } else a)
          = db.map (fun a => a) := by
        apply List.map_congr_left
        intro a ha
        rw [hnone a ha]
        simp
      rw [this, List.map_id']
    · obtain ⟨res, hres⟩ := processAll_ok_of_forall _ _ hall
      unfold run_iteration
      rw [if_neg hemp, hres]
      refine ⟨rfl, ?_⟩
      apply List.map_congr_left
      intro a ha
      by_cases helig : eligibleCheckout a = true
      · rw [if_pos helig, if_pos helig]
        obtain ⟨b, hb⟩ := hall a (List.mem_filter.mpr ⟨ha, helig⟩)
        rw [hb]
        exact checkout_procedure_ok uploadS uploadM now a b hb
      · rw [if_neg helig, if_neg helig]

/-- Witness for the C1 theorem: a batch of three eligible attempts in which the
second raises during the static upload — the committed state is the original
one and the error propagates; and the same batch with uploads that always
succeed commits without error. -/
theorem checkout_batch_transaction_witness :
    ((run_iteration (checkout_procedure witnessUploadS witnessUploadM 7) witnessBatch).1
        = witnessBatch
      ∧ ∃ e, (run_iteration (checkout_procedure witnessUploadS witnessUploadM 7)
          witnessBatch).2 = some e)
    ∧ (run_iteration (checkout_procedure witnessUploadM witnessUploadM 7) witnessBatch).2
        = none :=
  ⟨(checkout_batch_transaction witnessUploadS witnessUploadM 7 witnessBatch).1
      ⟨⟨2, true, true, true, none⟩, by decide, .valueError "boom", by decide⟩,
   ((checkout_batch_transaction witnessUploadM witnessUploadM 7 witnessBatch).2
      (fun a _ => ⟨{ a with checkout_started_at := some 7, queued_checkout := false }, rfl⟩)).1⟩

/-- C2: evaluation of the embedded `terminate` at the claim's scenarios.
Children are processed in reverse start order and a child that never exits is
force-killed once the 10-poll window elapses, as the claim requires — but a
child that exits immediately with status 0 upon the terminate request is ALSO
force-killed, because `if not p.poll():` is truthy for exit status 0 exactly as
for `None`; only a child reporting a nonzero status escapes the kill.  This
contradicts the claim (and matches the source defect the spec documents in its
design notes, making the claim the intended behavior and the code the slip). -/
theorem terminate_kills_clean_exit :
    terminate_child ⟨1, fun _ => some 0⟩ = true
    ∧ terminate_child ⟨2, fun _ => none⟩ = true
    ∧ terminate_child ⟨3, fun _ => some 1⟩ = false
    ∧ terminate [⟨1, fun _ => some 1⟩, ⟨2, fun _ => some 1⟩]
        = [(2, false), (1, false)] :=
  ⟨rfl, rfl, rfl, rfl⟩

end Balaio
